import Mathlib

/-!
Verification of the BalancEED gamification and progress-scoring core.

The repository is a FastAPI backend over a document store.  The sources under
scrutiny are:
* `backend/server.py` — route handlers; we embed `complete_language_lesson`
  and `get_asvab_progress` directly from the source.
* `backend/seed_data.py` — seed questions (`points`, `correct_answer`) which
  fix the shape of the `Question` record.
* `backend_test.py` — the integration tests exercising quiz submission,
  enrollment, and progress updates.

The quiz-submission / enrollment / progress / streak / XP handlers themselves
are not present in the sources (only their tests, callers and seed data are),
so those operations are modelled from the specification's §4 contracts; each
such definition carries a doc comment saying so.
-/

namespace BalancEED

/-! ## Rounding

Python's builtin `round` performs round-half-to-even.  The scores in this
development are rationals, so we model `round(x, 1)` on `ℚ`. -/

/-- Round-half-to-even to an integer, as Python's builtin `round` does. -/
def pyRound (q : ℚ) : ℤ :=
  if q - (⌊q⌋ : ℚ) < 1/2 then ⌊q⌋
  else if 1/2 < q - (⌊q⌋ : ℚ) then ⌊q⌋ + 1
  else if ⌊q⌋ % 2 = 0 then ⌊q⌋ else ⌊q⌋ + 1

/-- `round(x, 1)` in Python: round to one decimal place. -/
def round1 (q : ℚ) : ℚ := (pyRound (q * 10) : ℚ) / 10

/-- The error taxonomy of the spec's §7: `NotFound` (missing lesson / course /
question set) and `Conflict` (duplicate enrollment). -/
inductive ApiError where
  | NotFound
  | Conflict
deriving Repr, DecidableEq

/-! ## ScoreCalculator

The quiz data model follows `create_questions_for_lesson` in
`backend/seed_data.py`: each question has an `id`, a single `correct_answer`
string and a `points` value. -/

/-- A quiz question, after `create_questions_for_lesson` in
`backend/seed_data.py` (irrelevant display fields omitted). -/
structure Question where
  id : String
  correct_answer : String
  points : Nat
deriving Repr, DecidableEq

/-- Modelled from the spec: answer normalization for grading — lower-cased
with leading and trailing whitespace stripped (§4.1), i.e. Python's
`.strip().lower()` expressed on the string's character list. -/
def normalize (s : String) : String :=
  ⟨((s.data.dropWhile Char.isWhitespace).reverse.dropWhile
      Char.isWhitespace).reverse.map Char.toLower⟩

/-- Modelled from the spec: a question is answered correctly when a submitted
answer exists for its id and the normalized submitted answer equals the
normalized stored correct answer (§4.1).  A missing answer is simply wrong. -/
def answerCorrect (answers : List (String × String)) (q : Question) : Bool :=
  match answers.lookup q.id with
  | some a => normalize a == normalize q.correct_answer
  | none => false

/-- Modelled from the spec: `scored_points` — the sum of `points` over the
correctly answered questions (§4.1). -/
def scoredPoints (questions : List Question) (answers : List (String × String)) : Nat :=
  ((questions.filter (answerCorrect answers)).map Question.points).sum

/-- Modelled from the spec: `total_points` — the sum of `points` over all of
the lesson's questions (§4.1). -/
def totalPoints (questions : List Question) : Nat :=
  (questions.map Question.points).sum

/-- The quiz-submission response shape (`score`, `scored_points`,
`total_points`, `passed`, `xp_earned` — spec §6), together with the exact
internal percentage of §4.1 before display rounding. -/
structure QuizResult where
  score : ℚ
  score_percentage : ℚ
  scored_points : Nat
  total_points : Nat
  passed : Bool
  xp_earned : Nat
deriving Repr, DecidableEq

/-- Modelled from the spec: the quiz-submission operation (§4.1 ScoreCalculator);
the route handler is absent from the sources — only its test `test_submit_quiz`
and the question seed data are present.  Fails with `NotFound` when the lesson
has zero associated questions; otherwise grades the submission:
`score_percentage = scored_points / total_points * 100` (else `0`),
`passed = score_percentage ≥ 70.0`, `xp_earned = scored_points` if passed else
`0`, and the reported `score` is the percentage rounded to one decimal. -/
def submitQuiz (questions : List Question) (answers : List (String × String)) :
    Except ApiError QuizResult :=
  if questions.isEmpty then .error .NotFound
  else
    let total := totalPoints questions
    let scored := scoredPoints questions answers
    let pct : ℚ := if 0 < total then (scored : ℚ) / (total : ℚ) * 100 else 0
    let passed : Bool := decide ((70 : ℚ) ≤ pct)
    .ok { score := round1 pct
          score_percentage := pct
          scored_points := scored
          total_points := total
          passed := passed
          xp_earned := if passed then scored else 0 }

/-- An immutable record of one grading event (spec §3 QuizAttempt). -/
structure QuizAttempt where
  answers : List (String × String)
  score : ℚ
  total_points : Nat
  time_taken : Nat
deriving Repr, DecidableEq

/-- The persistent state touched by quiz submission: the stored attempts. -/
structure QuizStore where
  attempts : List QuizAttempt
deriving Repr, DecidableEq

/-- Modelled from the spec: stateful quiz submission — on success one immutable
`QuizAttempt` is persisted; on `NotFound` the failure occurs before any attempt
is recorded (§4.1). -/
def submitQuizSt (st : QuizStore) (questions : List Question)
    (answers : List (String × String)) (time_taken : Nat) :
    Except ApiError QuizResult × QuizStore :=
  match submitQuiz questions answers with
  | .error e => (.error e, st)
  | .ok r =>
      (.ok r, ⟨st.attempts ++ [⟨answers, r.score, r.total_points, time_taken⟩]⟩)

/-! ## StreakTracker

Modelled from the spec (§4.2); calendar dates are represented by their day
numbers, so "the next calendar day" is `d + 1`. -/

/-- The streak-relevant slice of a user record (spec §3 User). -/
structure StreakState where
  current_streak : Nat
  longest_streak : Nat
  last_activity_date : Option ℤ
deriving Repr, DecidableEq

/-- A fresh user: no activity yet, both streak counters zero. -/
def StreakState.init : StreakState := ⟨0, 0, none⟩

/-- Modelled from the spec: the streak update on a qualifying activity
(§4.2 StreakTracker).  First-ever activity sets the streak to 1 (raising
`longest_streak` to 1 if it was below); a consecutive-day activity increments
the streak and folds it into `longest_streak`; any other different-day
activity resets the streak to 1 leaving `longest_streak` untouched; a same-day
repeat changes nothing. -/
def updateStreak (s : StreakState) (today : ℤ) : StreakState :=
  match s.last_activity_date with
  | none => ⟨1, max s.longest_streak 1, some today⟩
  | some d =>
      if today = d + 1 then
        ⟨s.current_streak + 1, max s.longest_streak (s.current_streak + 1), some today⟩
      else if today ≠ d then
        ⟨1, s.longest_streak, some today⟩
      else s

/-- A sequence of qualifying activities applied in order. -/
def runStreak (s : StreakState) (days : List ℤ) : StreakState :=
  days.foldl updateStreak s

/-! ## XPLedger

Modelled from the spec (§4.3): the level is derived from `total_xp`, never
stored. -/

/-- Modelled from the spec: `add_xp` increments `total_xp` (§4.3). -/
def add_xp (total_xp amount : Nat) : Nat := total_xp + amount

/-- Modelled from the spec: `current_level = floor(total_xp / 100) + 1` (§4.3). -/
def current_level (total_xp : Nat) : Nat := total_xp / 100 + 1

/-- Modelled from the spec: `xp_for_next_level = current_level * 100 - total_xp`
(§4.3). -/
def xp_for_next_level (total_xp : Nat) : Nat := current_level total_xp * 100 - total_xp

/-! ## ProgressService

Modelled from the spec (§4.4): enrollment and per-lesson progress updates. -/

/-- A per-(user, course) progress record (spec §3 UserProgress). -/
structure UserProgress where
  user_id : String
  course_id : String
  completed_lessons : List String
  time_spent : Nat
  last_accessed : ℤ
deriving Repr, DecidableEq

/-- A freshly created progress record with zero progress. -/
def zeroProgress (u c : String) (now : ℤ) : UserProgress :=
  ⟨u, c, [], 0, now⟩

/-- The store touched by enrollment: the progress records and the courses'
enrollment counters, keyed by course id. -/
structure EnrollStore where
  progresses : List UserProgress
  courses : List (String × Nat)
deriving Repr, DecidableEq

/-- The enrollment count recorded for a course (first record with that id). -/
def enrollmentCount (st : EnrollStore) (c : String) : Option Nat :=
  st.courses.lookup c

/-- Modelled from the spec: `enroll(user, course)` (§4.4) — fails with
`Conflict` when a `UserProgress` already exists for the pair; otherwise
creates one with zero progress and increments the course's
`enrollment_count` by 1. -/
def enroll (st : EnrollStore) (u c : String) (now : ℤ) : Except ApiError EnrollStore :=
  if st.progresses.any (fun p => p.user_id == u && p.course_id == c) then
    .error .Conflict
  else
    .ok ⟨st.progresses ++ [zeroProgress u c now],
         st.courses.map (fun e => if e.1 == c then (e.1, e.2 + 1) else e)⟩

/-- Insertion into the completed-lessons set: a no-op when already present. -/
def addCompleted (ls : List String) (lesson_id : String) : List String :=
  if lesson_id ∈ ls then ls else ls ++ [lesson_id]

/-- Modelled from the spec: the unconditional part of
`update_progress(user, lesson_id, progress_percentage, time_spent)` on the
progress record (§4.4) — adds `lesson_id` to the completed-set (idempotent),
advances `last_accessed` to now, and adds `time_spent` to the cumulative
total (which is not idempotent: resubmission double-counts time). -/
def update_progress (p : UserProgress) (lesson_id : String) (time_spent : Nat)
    (now : ℤ) : UserProgress :=
  ⟨p.user_id, p.course_id, addCompleted p.completed_lessons lesson_id,
   p.time_spent + time_spent, now⟩

/-! ## Language-lesson completion (embedded from `backend/server.py`)

`complete_language_lesson` (server.py, the `/language-learning/complete-lesson`
route) reads the `(user, language)` `LanguageProgress` record.  If it exists it
sets `total_points += score * 2`, `streak_count := streak_count + 1` if
`score >= 80` else `0`, `lessons_completed += 1`; otherwise it inserts a fresh
record with `total_points = score * 2`, `streak_count = 1` if `score >= 80`
else `0`, `lessons_completed = 1`.  It then sets the user's `language_streak`
to `new_streak if 'new_streak' in locals() else 1` — `new_streak` is only a
local of the update branch, so the insert branch always writes `1`.  The
response carries `points_earned = score * 2`. -/

/-- The mutable fields of a `LanguageProgress` record (server.py model). -/
structure LanguageProgress where
  total_points : ℤ
  streak_count : Nat
  lessons_completed : Nat
deriving Repr, DecidableEq

/-- The state read and written by `complete_language_lesson`: the
`(user, language)` progress record, if any, and the user's `language_streak`
field. -/
structure LangState where
  progress : Option LanguageProgress
  language_streak : Nat
deriving Repr, DecidableEq

/-- `complete_language_lesson` from `backend/server.py`, as a state
transformer returning the new state and the response's `points_earned`. -/
def complete_language_lesson (st : LangState) (score : ℤ) : LangState × ℤ :=
  match st.progress with
  | some p =>
      let new_points := p.total_points + score * 2
      let new_streak := if 80 ≤ score then p.streak_count + 1 else 0
      let new_lessons := p.lessons_completed + 1
      (⟨some ⟨new_points, new_streak, new_lessons⟩, new_streak⟩, score * 2)
  | none =>
      (⟨some ⟨score * 2, if 80 ≤ score then 1 else 0, 1⟩, 1⟩, score * 2)

/-! ## ASVAB progress (embedded from `backend/server.py`)

`get_asvab_progress` builds `subject_scores` by iterating the user's stored
results (later results overwrite earlier ones per subject), reads the four
AFQT subjects with default 0, and computes
`afqt_score = sum(afqt_scores) / len([s for s in afqt_scores if s > 0])
if any(afqt_scores) else 0`.  Python's `any` tests truthiness, i.e.
non-zeroness — when some AFQT score is non-zero but none is strictly
positive the divisor is `len([]) = 0` and the handler raises
`ZeroDivisionError`; we model that crash as `none`. -/

/-- A stored ASVAB result, reduced to the fields `get_asvab_progress` reads
(server.py model `ASVABResult`). -/
structure ASVABResult where
  subject : String
  score : ℤ
deriving Repr, DecidableEq

/-- `subject_scores.get(subject, 0)` after the building loop of
`get_asvab_progress`: the score of the last stored result for the subject,
0 when the user has none. -/
def subjectScore (results : List ASVABResult) (subject : String) : ℤ :=
  results.foldl (fun acc r => if r.subject == subject then r.score else acc) 0

/-- The four AFQT subjects, in the handler's order. -/
def afqtSubjects : List String :=
  ["arithmetic_reasoning", "mathematics_knowledge", "word_knowledge",
   "paragraph_comprehension"]

/-- The response of `get_asvab_progress` (the claim-relevant fields). -/
structure AsvabProgress where
  afqt_score : ℚ
  total_tests_taken : Nat
  military_eligibility : String
deriving Repr, DecidableEq

/-- `get_asvab_progress` from `backend/server.py`; `none` models the
`ZeroDivisionError` raised when `any(afqt_scores)` holds but no AFQT score is
strictly positive.  The returned `afqt_score` is rounded to one decimal;
the eligibility test uses the unrounded value, as in the source. -/
def get_asvab_progress (results : List ASVABResult) : Option AsvabProgress :=
  let afqt_scores := afqtSubjects.map (subjectScore results)
  if afqt_scores.any (fun s => s ≠ 0) then
    let divisor := (afqt_scores.filter (fun s => 0 < s)).length
    if divisor = 0 then none
    else
      let afqt : ℚ := (afqt_scores.sum : ℚ) / (divisor : ℚ)
      some ⟨round1 afqt, results.length,
            if 31 ≤ afqt then "Eligible" else "Not Eligible"⟩
  else
    some ⟨round1 0, results.length,
          if 31 ≤ (0 : ℚ) then "Eligible" else "Not Eligible"⟩

/-! ## Helper lemmas -/

lemma totalPoints_nil : totalPoints [] = 0 := rfl

lemma isEmpty_false_of_totalPoints_pos (questions : List Question)
    (h : 0 < totalPoints questions) : questions.isEmpty = false := by
  cases questions with
  | nil => simp [totalPoints] at h
  | cons q qs => rfl

lemma per_question_value (answers : List (String × String)) (q : Question) :
    (match answers.lookup q.id with
     | some a => if normalize a = normalize q.correct_answer then q.points else 0
     | none => 0) = if answerCorrect answers q then q.points else 0 := by
  unfold answerCorrect
  cases answers.lookup q.id with
  | none => simp
  | some a => simp [beq_iff_eq]

lemma filter_points_sum (l : List Question) (p : Question → Bool) :
    ((l.filter p).map Question.points).sum =
      (l.map (fun q => if p q then q.points else 0)).sum := by
  induction l with
  | nil => rfl
  | cons q qs ih =>
    cases hq : p q <;> simp [List.filter_cons, hq, ih]

/-! ## Claim theorems: quiz scoring -/

/-- Claim C1: for every quiz submission on a lesson whose question set has
`total_points > 0`, the result satisfies
`score_percentage = scored_points / total_points * 100`, `passed` is true
exactly when `score_percentage ≥ 70.0`, and `xp_earned` equals
`scored_points` when passed and `0` otherwise. -/
theorem submitQuiz_scoring (questions : List Question)
    (answers : List (String × String)) (h : 0 < totalPoints questions) :
    ∃ r : QuizResult, submitQuiz questions answers = .ok r ∧
      r.score_percentage =
        (scoredPoints questions answers : ℚ) / (totalPoints questions : ℚ) * 100 ∧
      (r.passed = true ↔ (70 : ℚ) ≤ r.score_percentage) ∧
      r.xp_earned = (if r.passed then scoredPoints questions answers else 0) := by
  have hne := isEmpty_false_of_totalPoints_pos questions h
  unfold submitQuiz
  rw [hne]
  simp only [Bool.false_eq_true, if_false, h, if_true]
  exact ⟨_, rfl, rfl, by simp, rfl⟩

/-- Claim C1 witness: a concrete lesson with positive total points. -/
theorem submitQuiz_scoring_witness :
    0 < totalPoints [⟨"q1", "Paris", 10⟩] ∧
    (∃ r : QuizResult, submitQuiz [⟨"q1", "Paris", 10⟩] [("q1", "paris")] = .ok r ∧
      r.score_percentage =
        (scoredPoints [⟨"q1", "Paris", 10⟩] [("q1", "paris")] : ℚ) /
          (totalPoints [⟨"q1", "Paris", 10⟩] : ℚ) * 100 ∧
      (r.passed = true ↔ (70 : ℚ) ≤ r.score_percentage) ∧
      r.xp_earned =
        (if r.passed then scoredPoints [⟨"q1", "Paris", 10⟩] [("q1", "paris")] else 0)) :=
  ⟨by decide, submitQuiz_scoring [⟨"q1", "Paris", 10⟩] [("q1", "paris")] (by decide)⟩

/-- Claim C2: a question's points are added to `scored_points` exactly when a
submitted answer exists for its id and, normalized (lower-cased and trimmed),
equals the stored correct answer normalized the same way; a question with no
submitted answer scores as wrong rather than erroring; and the spec's worked
example (q1 worth 10 with answer "Paris", q2 worth 5 with answer "True",
submitted answers " paris " and "false") yields `scored_points = 10`,
`total_points = 15`, `score = 66.7`, `passed = false`, `xp_earned = 0`. -/
theorem scoredPoints_per_question :
    (∀ (questions : List Question) (answers : List (String × String)),
        scoredPoints questions answers =
          (questions.map (fun q =>
            match answers.lookup q.id with
            | some a => if normalize a = normalize q.correct_answer then q.points else 0
            | none => 0)).sum) ∧
    submitQuiz [⟨"q1", "Paris", 10⟩, ⟨"q2", "True", 5⟩]
        [("q1", " paris "), ("q2", "false")] =
      .ok ⟨667/10, 200/3, 10, 15, false, 0⟩ := by
  constructor
  · intro questions answers
    unfold scoredPoints
    rw [filter_points_sum]
    congr 1
    exact List.map_congr_left fun q _ => (per_question_value answers q).symm
  · have h1 : totalPoints [⟨"q1", "Paris", 10⟩, ⟨"q2", "True", 5⟩] = 15 := rfl
    have h2 : scoredPoints [⟨"q1", "Paris", 10⟩, ⟨"q2", "True", 5⟩]
        [("q1", " paris "), ("q2", "false")] = 10 := rfl
    unfold submitQuiz
    simp only [h1, h2, List.isEmpty_cons, Bool.false_eq_true, if_false]
    norm_num [round1, pyRound]

/-! ## Claim theorems: XP and leveling -/

/-- Claim C5: the reported level values are pure functions of `total_xp`
(`current_level = floor(total_xp / 100) + 1`,
`xp_for_next_level = current_level * 100 - total_xp`), and a user with 95 XP
granted 10 XP ends with 105 XP, level 2 and 95 XP to the next level. -/
theorem level_derivation :
    (∀ total_xp : Nat, (current_level total_xp : ℤ) = ⌊(total_xp : ℚ) / 100⌋ + 1) ∧
    (∀ total_xp : Nat, (xp_for_next_level total_xp : ℤ) =
        (current_level total_xp : ℤ) * 100 - (total_xp : ℤ)) ∧
    add_xp 95 10 = 105 ∧ current_level 105 = 2 ∧ xp_for_next_level 105 = 95 := by
  refine ⟨fun n => ?_, fun n => ?_, rfl, rfl, rfl⟩
  · rw [current_level,
        show ((100 : ℚ)) = ((100 : ℕ) : ℚ) by norm_num,
        Rat.floor_natCast_div_natCast]
    omega
  · simp only [xp_for_next_level, current_level]
    omega

/-! ## Claim theorems: language-lesson completion (from `server.py`) -/

/-- Claim C9: `complete_language_lesson` with score `s` returns
`points_earned = 2*s`; on an existing `(user, language)` record it adds `2*s`
points, one completed lesson, and sets the streak (both on the record and on
the user) to the old streak + 1 when `s ≥ 80` and to 0 otherwise; with no
record it creates one with streak `1` when `s ≥ 80` and `0` otherwise but
sets the user's `language_streak` to `1` regardless of `s`. -/
theorem complete_language_lesson_spec (score : ℤ) (p : LanguageProgress) (u : Nat) :
    (complete_language_lesson ⟨some p, u⟩ score).2 = 2 * score ∧
    (complete_language_lesson ⟨none, u⟩ score).2 = 2 * score ∧
    (complete_language_lesson ⟨some p, u⟩ score).1 =
      ⟨some ⟨p.total_points + 2 * score,
             (if 80 ≤ score then p.streak_count + 1 else 0),
             p.lessons_completed + 1⟩,
       (if 80 ≤ score then p.streak_count + 1 else 0)⟩ ∧
    (complete_language_lesson ⟨none, u⟩ score).1 =
      ⟨some ⟨2 * score, (if 80 ≤ score then 1 else 0), 1⟩, 1⟩ := by
  refine ⟨by simp [complete_language_lesson, mul_comm],
          by simp [complete_language_lesson, mul_comm],
          by simp [complete_language_lesson, mul_comm],
          by simp [complete_language_lesson, mul_comm]⟩

/-! ## Claim theorems: streaks -/

/-- Claim C3: with a recorded last activity date, a qualifying activity on the
next calendar day increments `current_streak` by 1 and sets `longest_streak`
to the maximum of itself and the new streak; on any other different calendar
day it sets `current_streak` to 1 leaving `longest_streak` unchanged; and
from yesterday's activity with streak 3 and record 5, an activity today
yields streak 4 and record 5. -/
theorem updateStreak_cases (s : StreakState) (d today : ℤ)
    (hlast : s.last_activity_date = some d) :
    (today = d + 1 →
      updateStreak s today =
        ⟨s.current_streak + 1, max s.longest_streak (s.current_streak + 1),
         some today⟩) ∧
    (today ≠ d + 1 → today ≠ d →
      updateStreak s today = ⟨1, s.longest_streak, some today⟩) ∧
    updateStreak ⟨3, 5, some (today - 1)⟩ today = ⟨4, 5, some today⟩ := by
  refine ⟨fun h => ?_, fun h1 h2 => ?_, ?_⟩
  · simp [updateStreak, hlast, h]
  · simp [updateStreak, hlast, h1, h2]
  · have h3 : today = today - 1 + 1 := by ring
    simp [updateStreak, ← h3]

/-- Claim C3 witness: last activity on day 9, streak 3, record 5; a
qualifying activity on day 10. -/
theorem updateStreak_cases_witness :
    (⟨3, 5, some 9⟩ : StreakState).last_activity_date = some 9 ∧
    (((10 : ℤ) = 9 + 1 →
        updateStreak ⟨3, 5, some 9⟩ 10 =
          ⟨(⟨3, 5, some 9⟩ : StreakState).current_streak + 1,
           max (⟨3, 5, some 9⟩ : StreakState).longest_streak
             ((⟨3, 5, some 9⟩ : StreakState).current_streak + 1), some 10⟩) ∧
      ((10 : ℤ) ≠ 9 + 1 → (10 : ℤ) ≠ 9 →
        updateStreak ⟨3, 5, some 9⟩ 10 =
          ⟨1, (⟨3, 5, some 9⟩ : StreakState).longest_streak, some 10⟩) ∧
      updateStreak ⟨3, 5, some (10 - 1)⟩ 10 = ⟨4, 5, some 10⟩) :=
  ⟨rfl, updateStreak_cases ⟨3, 5, some 9⟩ 9 10 rfl⟩

/-- The invariant every streak update maintains: the current streak never
exceeds the record, and once any activity is recorded both are at least 1. -/
def GoodStreak (s : StreakState) : Prop :=
  s.current_streak ≤ s.longest_streak ∧
  (s.last_activity_date ≠ none → 1 ≤ s.current_streak ∧ 1 ≤ s.longest_streak)

lemma goodStreak_update (s : StreakState) (t : ℤ) (hs : GoodStreak s) :
    GoodStreak (updateStreak s t) := by
  obtain ⟨h1, h2⟩ := hs
  unfold updateStreak
  cases hl : s.last_activity_date with
  | none =>
      refine ⟨?_, fun _ => ⟨le_refl 1, ?_⟩⟩ <;> simp [le_max_right]
  | some d =>
      have h3 := h2 (by simp [hl])
      dsimp only
      split_ifs with hc hg
      · exact ⟨le_max_right _ _, fun _ =>
          ⟨Nat.le_add_left 1 s.current_streak,
           le_trans (Nat.le_add_left 1 s.current_streak)
             (le_max_right s.longest_streak (s.current_streak + 1))⟩⟩
      · exact ⟨h3.2, fun _ => ⟨le_refl 1, h3.2⟩⟩
      · exact ⟨h1, fun _ => h3⟩

lemma goodStreak_run (days : List ℤ) :
    GoodStreak (runStreak StreakState.init days) := by
  have key : ∀ s : StreakState, GoodStreak s → GoodStreak (runStreak s days) := by
    induction days with
    | nil => exact fun s hs => hs
    | cons d rest ih => exact fun s hs => ih _ (goodStreak_update s d hs)
  exact key _ ⟨le_refl 0, by simp [StreakState.init]⟩

lemma longest_streak_mono (s : StreakState) (t : ℤ) :
    s.longest_streak ≤ (updateStreak s t).longest_streak := by
  unfold updateStreak
  cases hl : s.last_activity_date with
  | none => simp [le_max_left]
  | some d => dsimp only; split_ifs <;> simp [le_max_left]

lemma current_streak_step (s : StreakState) (t : ℤ) :
    (updateStreak s t).current_streak = 1 ∨
      s.current_streak ≤ (updateStreak s t).current_streak := by
  unfold updateStreak
  cases hl : s.last_activity_date with
  | none => exact Or.inl rfl
  | some d =>
      dsimp only
      split_ifs
      · exact Or.inr (Nat.le_succ _)
      · exact Or.inl rfl
      · exact Or.inr (le_refl _)

/-- Claim C4: after every streak update reachable from a fresh user —
including the first-ever qualifying activity — `current_streak ≤
longest_streak`; each update leaves `longest_streak` no smaller (so it is
monotonically non-decreasing across any sequence); and `current_streak`
never decreases except by a branch that sets it to 1. -/
theorem streak_invariants (days : List ℤ) (day : ℤ) :
    (updateStreak (runStreak StreakState.init days) day).current_streak ≤
      (updateStreak (runStreak StreakState.init days) day).longest_streak ∧
    (runStreak StreakState.init days).longest_streak ≤
      (updateStreak (runStreak StreakState.init days) day).longest_streak ∧
    ((updateStreak (runStreak StreakState.init days) day).current_streak = 1 ∨
      (runStreak StreakState.init days).current_streak ≤
        (updateStreak (runStreak StreakState.init days) day).current_streak) :=
  ⟨(goodStreak_update _ day (goodStreak_run days)).1,
   longest_streak_mono _ day, current_streak_step _ day⟩

/-! ## Claim theorems: error handling -/

/-- Claim C6: when the lesson's question set is empty — equivalently, under
the data-model invariant that every question is worth positive points, when
`total_points = 0` — quiz submission fails with `NotFound`, returns no score,
and leaves the store unchanged: no `QuizAttempt` is persisted. -/
theorem submitQuiz_empty_notFound (st : QuizStore) (questions : List Question)
    (answers : List (String × String)) (time_taken : Nat)
    (hpos : ∀ q ∈ questions, 0 < q.points)
    (h0 : totalPoints questions = 0) :
    submitQuizSt st questions answers time_taken = (.error .NotFound, st) := by
  have hnil : questions = [] := by
    cases questions with
    | nil => rfl
    | cons q qs =>
        have hq := hpos q (List.mem_cons_self q qs)
        have hsum : totalPoints (q :: qs) = q.points + totalPoints qs := by
          simp [totalPoints]
        omega
  subst hnil
  rfl

/-- Claim C6 witness: an empty question set with an empty store. -/
theorem submitQuiz_empty_notFound_witness :
    (∀ q ∈ ([] : List Question), 0 < q.points) ∧ totalPoints [] = 0 ∧
      submitQuizSt ⟨[]⟩ [] [] 0 = (.error .NotFound, ⟨[]⟩) :=
  ⟨by simp, rfl, submitQuiz_empty_notFound ⟨[]⟩ [] [] 0 (by simp) rfl⟩

lemma lookup_map_incr (l : List (String × Nat)) (c : String) :
    (l.map (fun e => if e.1 == c then (e.1, e.2 + 1) else e)).lookup c =
      (l.lookup c).map (fun n => n + 1) := by
  induction l with
  | nil => rfl
  | cons e l ih =>
      obtain ⟨k, v⟩ := e
      simp only [List.map_cons]
      by_cases h : k = c
      · subst h
        rw [if_pos (beq_self_eq_true k)]
        simp [List.lookup]
      · rw [if_neg (by simp [h] : ¬ ((k == c) = true))]
        have hck : (c == k) = false := by simp [Ne.symm h]
        simp only [List.lookup, hck]
        simpa using ih

/-- Claim C7: `enroll(user, course)` fails with `Conflict` when a
`UserProgress` record for the pair already exists, and otherwise creates a
zero-progress record for the pair and increments the course's
`enrollment_count` by exactly 1. -/
theorem enroll_spec (st : EnrollStore) (u c : String) (now : ℤ) (n : Nat)
    (hcount : enrollmentCount st c = some n) :
    ((∃ p ∈ st.progresses, p.user_id = u ∧ p.course_id = c) →
        enroll st u c now = .error .Conflict) ∧
    ((¬ ∃ p ∈ st.progresses, p.user_id = u ∧ p.course_id = c) →
      ∃ st2 : EnrollStore, enroll st u c now = .ok st2 ∧
        st2.progresses = st.progresses ++ [zeroProgress u c now] ∧
        enrollmentCount st2 c = some (n + 1)) := by
  have hany : (st.progresses.any fun p => p.user_id == u && p.course_id == c) = true ↔
      ∃ p ∈ st.progresses, p.user_id = u ∧ p.course_id = c := by
    simp [List.any_eq_true]
  constructor
  · intro hex
    unfold enroll
    rw [if_pos (hany.mpr hex)]
  · intro hnex
    unfold enroll
    rw [if_neg (fun hc => hnex (hany.mp hc))]
    refine ⟨_, rfl, rfl, ?_⟩
    unfold enrollmentCount at hcount ⊢
    rw [lookup_map_incr, hcount]
    rfl

/-- Claim C7 witness: one course with no enrollments and no progress records. -/
theorem enroll_spec_witness :
    enrollmentCount ⟨[], [("c1", 0)]⟩ "c1" = some 0 ∧
    (((∃ p ∈ (⟨[], [("c1", 0)]⟩ : EnrollStore).progresses,
          p.user_id = "u1" ∧ p.course_id = "c1") →
        enroll ⟨[], [("c1", 0)]⟩ "u1" "c1" 0 = .error .Conflict) ∧
      ((¬ ∃ p ∈ (⟨[], [("c1", 0)]⟩ : EnrollStore).progresses,
          p.user_id = "u1" ∧ p.course_id = "c1") →
        ∃ st2 : EnrollStore, enroll ⟨[], [("c1", 0)]⟩ "u1" "c1" 0 = .ok st2 ∧
          st2.progresses =
            (⟨[], [("c1", 0)]⟩ : EnrollStore).progresses ++
              [zeroProgress "u1" "c1" 0] ∧
          enrollmentCount st2 "c1" = some (0 + 1))) :=
  ⟨rfl, enroll_spec ⟨[], [("c1", 0)]⟩ "u1" "c1" 0 0 rfl⟩

/-! ## Claim theorems: progress updates -/

lemma mem_addCompleted_self (ls : List String) (l : String) :
    l ∈ addCompleted ls l := by
  unfold addCompleted
  split_ifs with h
  · exact h
  · simp

lemma addCompleted_mem (ls : List String) (l : String) (h : l ∈ ls) :
    addCompleted ls l = ls := by
  simp [addCompleted, h]

/-- Claim C8: submitting the same `update_progress` twice leaves the
completed-lessons set (and hence its size) unchanged on the second call —
re-adding a present lesson id is a no-op — while `time_spent` grows by the
submitted amount on every call, so the repeated call double-counts time. -/
theorem update_progress_repeat (p : UserProgress) (l : String) (t : Nat)
    (now1 now2 : ℤ) :
    (update_progress (update_progress p l t now1) l t now2).completed_lessons =
      (update_progress p l t now1).completed_lessons ∧
    (update_progress (update_progress p l t now1) l t now2).completed_lessons.length =
      (update_progress p l t now1).completed_lessons.length ∧
    (update_progress p l t now1).time_spent = p.time_spent + t ∧
    (update_progress (update_progress p l t now1) l t now2).time_spent =
      p.time_spent + t + t := by
  have h : (update_progress (update_progress p l t now1) l t now2).completed_lessons =
      (update_progress p l t now1).completed_lessons :=
    addCompleted_mem _ _ (mem_addCompleted_self _ _)
  exact ⟨h, by rw [h], rfl, rfl⟩

/-! ## Claim theorems: ASVAB progress (from `server.py`) -/

/-- Claim C10 counterexample: a stored ASVAB result carries its submitted
score unvalidated, so a negative score on an AFQT subject is storable; on it
`any(afqt_scores)` is true while no AFQT score is strictly positive, so the
handler divides by `len([]) = 0` and raises `ZeroDivisionError` — the
operation is not total over all stored result collections. -/
theorem get_asvab_progress_crash :
    get_asvab_progress [⟨"arithmetic_reasoning", -1⟩] = none := rfl

lemma foldl_subject_nonneg (subject : String) :
    ∀ (results : List ASVABResult) (acc : ℤ),
      (∀ r ∈ results, 0 ≤ r.score) → 0 ≤ acc →
      0 ≤ results.foldl (fun a r => if r.subject == subject then r.score else a) acc := by
  intro results
  induction results with
  | nil => exact fun acc _ hacc => hacc
  | cons r rest ih =>
      intro acc hall hacc
      simp only [List.foldl_cons]
      refine ih _ (fun x hx => hall x (List.mem_cons_of_mem r hx)) ?_
      by_cases hs : (r.subject == subject) = true
      · simpa [hs] using hall r (List.mem_cons_self r rest)
      · simpa [hs] using hacc

lemma subjectScore_nonneg (results : List ASVABResult)
    (h : ∀ r ∈ results, 0 ≤ r.score) (subject : String) :
    0 ≤ subjectScore results subject :=
  foldl_subject_nonneg subject results 0 h (le_refl 0)

lemma pyRound_cases (q : ℚ) :
    pyRound q = ⌊q⌋ ∨ (pyRound q = ⌊q⌋ + 1 ∧ 1/2 ≤ q - (⌊q⌋ : ℚ)) := by
  unfold pyRound
  split_ifs with h1 h2 h3
  · exact Or.inl rfl
  · exact Or.inr ⟨rfl, le_of_lt h2⟩
  · exact Or.inl rfl
  · exact Or.inr ⟨rfl, not_lt.mp h1⟩

lemma floor_le_pyRound (q : ℚ) : ⌊q⌋ ≤ pyRound q := by
  rcases pyRound_cases q with h | ⟨h, _⟩ <;> omega

lemma le_pyRound_iff (q : ℚ) (n : ℤ)
    (hgap : ¬ (((n : ℚ)) - 1/2 ≤ q ∧ q < ((n : ℚ)))) :
    n ≤ pyRound q ↔ ((n : ℚ)) ≤ q := by
  constructor
  · intro hle
    by_contra hq
    push_neg at hq
    have hfl : ⌊q⌋ < n := Int.floor_lt.mpr hq
    rcases pyRound_cases q with h | ⟨h, hr⟩
    · omega
    · have hn : n = ⌊q⌋ + 1 := by omega
      refine hgap ⟨?_, hq⟩
      have hfq : ((⌊q⌋ : ℚ)) = ((n : ℚ)) - 1 := by
        rw [hn]; push_cast; ring
      linarith [hr]
  · intro hle
    exact le_trans (Int.le_floor.mpr hle) (floor_le_pyRound q)

lemma no_gap_sum_div (S : ℤ) (c : Nat) (hc1 : 1 ≤ c) (hc4 : c ≤ 4) :
    ¬ ((((310 : ℤ) : ℚ)) - 1/2 ≤ (S : ℚ) / (c : ℚ) * 10 ∧
        (S : ℚ) / (c : ℚ) * 10 < (((310 : ℤ) : ℚ))) := by
  rintro ⟨hlo, hhi⟩
  have hcpos : (0 : ℚ) < (c : ℚ) := by
    have : (0 : ℕ) < c := hc1
    exact_mod_cast this
  rw [div_mul_eq_mul_div, le_div_iff₀ hcpos] at hlo
  rw [div_mul_eq_mul_div, div_lt_iff₀ hcpos] at hhi
  have h1 : (619 : ℚ) * (c : ℚ) ≤ 20 * (S : ℚ) := by push_cast at hlo ⊢; linarith
  have h2 : (20 : ℚ) * (S : ℚ) < 620 * (c : ℚ) := by push_cast at hhi ⊢; linarith
  have h1z : (619 : ℤ) * (c : ℤ) ≤ 20 * S := by exact_mod_cast h1
  have h2z : (20 : ℤ) * S < 620 * (c : ℤ) := by exact_mod_cast h2
  interval_cases c <;> omega

lemma eligible_iff_round1 (S : ℤ) (c : Nat) (hc1 : 1 ≤ c) (hc4 : c ≤ 4) :
    31 ≤ round1 ((S : ℚ) / (c : ℚ)) ↔ 31 ≤ (S : ℚ) / (c : ℚ) := by
  unfold round1
  have h10 : (0 : ℚ) < 10 := by norm_num
  rw [le_div_iff₀ h10]
  rw [show ((31 : ℚ)) * 10 = (((310 : ℤ)) : ℚ) by norm_num, Int.cast_le]
  rw [le_pyRound_iff _ 310 (no_gap_sum_div S c hc1 hc4)]
  constructor <;> intro h
  · nlinarith [h]
  · push_cast
    nlinarith [h]

/-- Claim C10 (amended): over collections of stored ASVAB results whose
scores are all non-negative, `get_asvab_progress` is total: `afqt_score` is 0
when every one of the four AFQT subject scores is 0 or missing, and otherwise
equals the sum of the four AFQT subject scores divided by the count of those
strictly positive, rounded to one decimal; `military_eligibility` is
"Eligible" exactly when `afqt_score ≥ 31`. -/
theorem get_asvab_progress_nonneg_total (results : List ASVABResult)
    (hpos : ∀ r ∈ results, 0 ≤ r.score) :
    ∃ out : AsvabProgress, get_asvab_progress results = some out ∧
      ((∀ subject ∈ afqtSubjects, subjectScore results subject = 0) →
        out.afqt_score = 0) ∧
      ((∃ subject ∈ afqtSubjects, subjectScore results subject ≠ 0) →
        out.afqt_score =
          round1 (((afqtSubjects.map (subjectScore results)).sum : ℚ) /
            ((((afqtSubjects.map (subjectScore results)).filter
                (fun x => 0 < x)).length : ℕ) : ℚ))) ∧
      (out.military_eligibility = "Eligible" ↔ 31 ≤ out.afqt_score) := by
  by_cases hall : ∀ subject ∈ afqtSubjects, subjectScore results subject = 0
  · have hany : ((afqtSubjects.map (subjectScore results)).any
        fun s => s ≠ 0) = false := by
      rw [List.any_eq_false]
      intro x hx
      obtain ⟨subject, hsub, rfl⟩ := List.mem_map.mp hx
      simp [hall subject hsub]
    refine ⟨⟨round1 0, results.length,
        if 31 ≤ (0 : ℚ) then "Eligible" else "Not Eligible"⟩, ?_, ?_, ?_, ?_⟩
    · simp only [get_asvab_progress, hany, Bool.false_eq_true, if_false]
    · intro _
      show round1 0 = 0
      norm_num [round1, pyRound]
    · intro hex
      obtain ⟨subject, hsub, hne⟩ := hex
      exact absurd (hall subject hsub) hne
    · show (if 31 ≤ (0 : ℚ) then "Eligible" else "Not Eligible") = "Eligible" ↔
        31 ≤ round1 0
      rw [if_neg (by norm_num : ¬ (31 : ℚ) ≤ 0),
          show round1 0 = 0 by norm_num [round1, pyRound]]
      exact iff_of_false (by decide) (by norm_num)
  · push_neg at hall
    obtain ⟨subject, hsub, hne⟩ := hall
    have hany : ((afqtSubjects.map (subjectScore results)).any
        fun s => s ≠ 0) = true := by
      rw [List.any_eq_true]
      exact ⟨subjectScore results subject,
        List.mem_map_of_mem (subjectScore results) hsub, by simp [hne]⟩
    have hxpos : 0 < subjectScore results subject :=
      lt_of_le_of_ne (subjectScore_nonneg results hpos subject) (Ne.symm hne)
    have hmemf : subjectScore results subject ∈
        (afqtSubjects.map (subjectScore results)).filter (fun x => 0 < x) :=
      List.mem_filter.mpr
        ⟨List.mem_map_of_mem (subjectScore results) hsub, by simp [hxpos]⟩
    have hd1 : 1 ≤ ((afqtSubjects.map (subjectScore results)).filter
        (fun x => 0 < x)).length :=
      List.length_pos.mpr (List.ne_nil_of_mem hmemf)
    have hd4 : ((afqtSubjects.map (subjectScore results)).filter
        (fun x => 0 < x)).length ≤ 4 := by
      calc ((afqtSubjects.map (subjectScore results)).filter
            (fun x => 0 < x)).length
          ≤ (afqtSubjects.map (subjectScore results)).length :=
            List.length_filter_le _ _
        _ = 4 := by simp [afqtSubjects]
    refine ⟨⟨round1 (((afqtSubjects.map (subjectScore results)).sum : ℚ) /
          ((((afqtSubjects.map (subjectScore results)).filter
              (fun x => 0 < x)).length : ℕ) : ℚ)), results.length,
        if 31 ≤ (((afqtSubjects.map (subjectScore results)).sum : ℚ) /
            ((((afqtSubjects.map (subjectScore results)).filter
                (fun x => 0 < x)).length : ℕ) : ℚ)) then "Eligible"
          else "Not Eligible"⟩, ?_, ?_, ?_, ?_⟩
    · simp only [get_asvab_progress, hany, if_true]
      rw [if_neg (by omega)]
    · intro hzero
      exact absurd (hzero subject hsub) hne
    · intro _
      rfl
    · show (if 31 ≤ (((afqtSubjects.map (subjectScore results)).sum : ℚ) /
            ((((afqtSubjects.map (subjectScore results)).filter
                (fun x => 0 < x)).length : ℕ) : ℚ)) then "Eligible"
          else "Not Eligible") = "Eligible" ↔
        31 ≤ round1 (((afqtSubjects.map (subjectScore results)).sum : ℚ) /
            ((((afqtSubjects.map (subjectScore results)).filter
                (fun x => 0 < x)).length : ℕ) : ℚ))
      rw [eligible_iff_round1 _ _ hd1 hd4]
      split_ifs with hcond
      · exact iff_of_true rfl hcond
      · exact iff_of_false (by decide) hcond

/-- Claim C10 witness: a single stored result with a non-negative score. -/
theorem get_asvab_progress_nonneg_total_witness :
    (∀ r ∈ [ASVABResult.mk "arithmetic_reasoning" 80], 0 ≤ r.score) ∧
    (∃ out : AsvabProgress,
      get_asvab_progress [⟨"arithmetic_reasoning", 80⟩] = some out ∧
      ((∀ subject ∈ afqtSubjects,
          subjectScore [⟨"arithmetic_reasoning", 80⟩] subject = 0) →
        out.afqt_score = 0) ∧
      ((∃ subject ∈ afqtSubjects,
          subjectScore [⟨"arithmetic_reasoning", 80⟩] subject ≠ 0) →
        out.afqt_score =
          round1
            (((afqtSubjects.map (subjectScore [⟨"arithmetic_reasoning", 80⟩])).sum : ℚ) /
              ((((afqtSubjects.map
                  (subjectScore [⟨"arithmetic_reasoning", 80⟩])).filter
                  (fun x => 0 < x)).length : ℕ) : ℚ))) ∧
      (out.military_eligibility = "Eligible" ↔ 31 ≤ out.afqt_score)) :=
  ⟨by decide,
   get_asvab_progress_nonneg_total [⟨"arithmetic_reasoning", 80⟩] (by decide)⟩

end BalancEED
